import Mathlib

/-!
A shallow embedding in Lean 4 of the run-orchestration core of a Twitter
crypto reply bot (src/twitter_bot/twitter_bot.py), together with theorems
checking the natural-language specification of the program against the code.

Python values are modelled as follows: machine text as `List Char` (one
element per code point, matching Python string indexing/slicing), Python
`int` ids that may also arrive as strings as the sum type `PyId`, float
scores and times as `ℚ` (the arithmetic the program performs on them is
exact), dictionaries as association lists, `random.choice` as an injected
index oracle, exceptions as `Option`/`Except`, and the wall clock and
external collaborators (post capability, search capability) as injected
oracles.
-/

namespace TwitterBot

/-- A Python value used as a tweet id: the platform hands out integers, but
history keys stringify them, and callers may pass either form. -/
inductive PyId where
  | pint (n : Int)
  | pstr (s : List Char)
deriving DecidableEq

/-- Python `str(tweet_id)`: the identity on strings, decimal rendering on
integers. -/
def pyStr : PyId → List Char
  | .pint n => (toString n).toList
  | .pstr s => s

/-- A raw post as consumed by `search_crypto_tweets` (line 107): its id,
text and public engagement metrics. -/
structure RawPost where
  id : PyId
  text : List Char
  like_count : Nat
  retweet_count : Nat
  reply_count : Nat
deriving DecidableEq

/-- Line 115: `engagement_score = likes + (retweets * 2) + (replies * 1.5)`,
computed exactly over `ℚ`. -/
def engagement_score (t : RawPost) : ℚ :=
  (t.like_count : ℚ) + ((t.retweet_count : ℚ) * 2) + ((t.reply_count : ℚ) * 1.5)

/-- Stable descending insertion: the semantics of CPython's stable
`list.sort(key=engagement_score, reverse=True)` (line 133).  An element is
placed after every already-placed element of strictly greater score and
before every element of smaller or equal score, so that elements of equal
score keep their original relative order. -/
def insertScoreDesc (x : RawPost) : List RawPost → List RawPost
  | [] => [x]
  | y :: ys =>
    if engagement_score x < engagement_score y then y :: insertScoreDesc x ys
    else x :: y :: ys

/-- Stable sort by `engagement_score`, highest first (line 133). -/
def sortScoreDesc : List RawPost → List RawPost
  | [] => []
  | x :: xs => insertScoreDesc x (sortScoreDesc xs)

/-- Lines 104-133 of `search_crypto_tweets`: keep the posts whose
engagement score reaches the threshold 100 (line 118, inclusive), then sort
the survivors by score descending with a stable sort. -/
def select_candidates (posts : List RawPost) : List RawPost :=
  sortScoreDesc (posts.filter (fun t => decide ((100 : ℚ) ≤ engagement_score t)))

/-- `search_crypto_tweets` (lines 64-140): the search response is an
injected oracle; an upstream exception (line 138) or an empty response
(line 99) gives `[]`, otherwise the filtered, sorted candidates. -/
def search_crypto_tweets (res : Except (List Char) (Option (List RawPost))) :
    List RawPost :=
  match res with
  | .error _ => []
  | .ok none => []
  | .ok (some posts) => select_candidates posts

/-- Python `str.lower`, one code point at a time. -/
def pyLower (t : List Char) : List Char := t.map Char.toLower

/-- Boolean list-prefix test, used to build the substring test below. -/
def isPrefOf : List Char → List Char → Bool
  | [], _ => true
  | _ :: _, [] => false
  | a :: as, b :: bs => a == b && isPrefOf as bs

/-- Python's `needle in haystack` on strings: substring occurrence. -/
def hasSub (needle : List Char) : List Char → Bool
  | [] => needle.isEmpty
  | c :: rest => isPrefOf needle (c :: rest) || hasSub needle rest

/-- The keyword table of `detect_tweet_context` (lines 232-239), in the
insertion order of the Python dict, which `for context, keywords in
contexts.items()` iterates in. -/
def contexts : List (List Char × List (List Char)) := [
  ("market_volatility".toList,
    ["crash", "dip", "bear", "bull", "dump", "pump", "market", "price",
     "down", "up", "sell", "buy"].map String.toList),
  ("airdrops".toList,
    ["airdrop", "free", "claim", "distribution", "eligible",
     "snapshot"].map String.toList),
  ("staking".toList,
    ["stake", "staking", "yield", "apy", "validator", "rewards",
     "passive"].map String.toList),
  ("nft".toList,
    ["nft", "collection", "mint", "floor", "opensea", "art"].map String.toList),
  ("defi".toList,
    ["defi", "yield", "farm", "liquidity", "pool", "swap", "lend",
     "borrow"].map String.toList),
  ("regulation".toList,
    ["sec", "regulation", "compliance", "legal", "government",
     "ban"].map String.toList)]

/-- Does any keyword of a category occur in the (already lowered) text? -/
def catMatches (kws : List (List Char)) (t : List Char) : Bool :=
  kws.any (fun kw => hasSub kw t)

/-- `detect_tweet_context` (lines 219-248): lower-case the text, return the
first category in `contexts` order with a keyword occurring in it, else the
default category string. -/
def detect_tweet_context (tweet_text : List Char) : List Char :=
  let t := pyLower tweet_text
  match contexts.find? (fun p => catMatches p.2 t) with
  | some p => p.1
  | none => "general_crypto".toList

/-- Python `dict.get(k)` on a string-keyed dict (insertion-ordered assoc
list). -/
def lookupStr {α : Type} (m : List (List Char × α)) (k : List Char) : Option α :=
  (m.find? (fun e => e.1 == k)).map (fun e => e.2)

/-- Python `random.choice(l)` with the randomness injected as an index `k`:
`none` models the `IndexError` it raises on an empty list. -/
def pyChoice {α : Type} (l : List α) (k : ℕ) : Option α :=
  l.get? (k % l.length)

/-- The template table of `generate_template_reply` (lines 264-317): only
the three contexts `market_volatility`, `airdrops` and `general_crypto` are
defined, each with the three personas. -/
def templates : List (List Char × List (List Char × List (List Char))) := [
  ("market_volatility".toList, [
    ("insider".toList,
      ["Market moves like this separate signal from noise. Smart money positioned weeks ago.",
       "Not every dip deserves attention. This one might. The patterns are familiar to those who've seen cycles.",
       "Price action is just surface noise. The real story is in the quiet accumulation happening now."].map String.toList),
    ("expert".toList,
      ["These market swings feel dramatic until you've seen a few cycles. Focus on fundamentals not emotions.",
       "Market psychology at work. Fear and greed playing out exactly as expected. Stay rational.",
       "Short-term volatility, long-term opportunity. The patient ones always win these games."].map String.toList),
    ("friend".toList,
      ["Wild ride right? Remember when everyone panicked last time and missed the recovery? History rhymes.",
       "Market's just doing its thing. Deep breaths and zoom out on the chart. This too shall pass.",
       "Crypto being crypto! Perfect time to remember why you got in this space to begin with."].map String.toList)]),
  ("airdrops".toList, [
    ("insider".toList,
      ["The airdrop game changed months ago. The valuable ones aren't announced loudly.",
       "Real value rarely comes from what everyone's chasing. The signal is elsewhere.",
       "Interesting timing on this distribution. Watch what happens next week."].map String.toList),
    ("expert".toList,
      ["Airdrops are marketing, not gifts. Always ask what you're giving up in return.",
       "The best airdrops come to those building value, not those hunting for free money.",
       "Quality projects don't need to give tokens away. Worth considering why this one does."].map String.toList),
    ("friend".toList,
      ["Free tokens are fun but don't forget to check the project fundamentals too!",
       "Airdrops are like crypto lottery tickets. Enjoy the game but don't build your strategy on them.",
       "Got my popcorn ready for this airdrop season! Just remember most tokens go to zero."].map String.toList)]),
  ("general_crypto".toList, [
    ("insider".toList,
      ["The narrative shifts but the fundamentals remain. Those who know are quietly building.",
       "Interesting perspective. Though the real alpha is rarely discussed publicly.",
       "Some see volatility. Others see opportunity. The difference is experience."].map String.toList),
    ("expert".toList,
      ["Worth considering both sides. The market rewards those who think independently.",
       "The crypto space evolves fast. Adapting your strategy is key to staying ahead.",
       "Focus on signal not noise. The best opportunities aren't the ones everyone's talking about."].map String.toList),
    ("friend".toList,
      ["Love the energy in crypto right now! So many possibilities if you know where to look.",
       "Crypto keeps it interesting! Never a dull moment when you're building the future.",
       "This space moves so fast! Exciting to see where we'll be this time next year."].map String.toList)])]

/-- The persona keys of the `personas` dict (lines 156-169), in insertion
order: `list(personas.keys())`. -/
def personas : List (List Char) := ["insider", "expert", "friend"].map String.toList

/-- The fixed neutral reply returned by `generate_reply`'s exception
handler (line 217). -/
def fallback_reply : List Char :=
  "Interesting perspective on crypto. The market always has more layers than most realize.".toList

/-- `generate_template_reply` (lines 250-327).  `templates["general_crypto"]`
and `context_templates["insider"]` are evaluated eagerly as the `dict.get`
defaults, so a missing key there would raise (`none`); the random template
pick is injected as index `k`. -/
def generate_template_reply (_tweet_text context persona : List Char) (k : ℕ) :
    Option (List Char) :=
  match lookupStr templates "general_crypto".toList with
  | none => none
  | some dflt =>
    let context_templates := (lookupStr templates context).getD dflt
    match lookupStr context_templates "insider".toList with
    | none => none
    | some dflt2 =>
      let persona_templates := (lookupStr context_templates persona).getD dflt2
      pyChoice persona_templates k

/-- Lines 209-210: `if len(reply) > 250: reply = reply[:247] + "..."`. -/
def apply_length_limit (reply : List Char) : List Char :=
  if 250 < reply.length then reply.take 247 ++ "...".toList else reply

/-- The body of `generate_reply`'s `try` block (lines 154-213): persona
resolution (random pick injected as `k1`, undefined personas fall back to
"insider"), context detection, template generation (template pick injected
as `k2`), then length enforcement.  `none` models an escaping exception. -/
def generate_reply_body (tweet_text persona : List Char) (k1 k2 : ℕ) :
    Option (List Char) :=
  match (if persona = "random".toList then pyChoice personas k1 else some persona) with
  | none => none
  | some persona1 =>
    let persona2 := if persona1 ∈ personas then persona1 else "insider".toList
    let context := detect_tweet_context tweet_text
    match generate_template_reply tweet_text context persona2 k2 with
    | none => none
    | some reply => some (apply_length_limit reply)

/-- `generate_reply` (lines 143-217): the `try` body, with any escaping
exception caught and replaced by the fixed fallback string. -/
def generate_reply (tweet_text persona : List Char) (k1 k2 : ℕ) : List Char :=
  match generate_reply_body tweet_text persona k1 k2 with
  | some r => r
  | none => fallback_reply

/-- One record of `TweetHistory.replied_tweets` (lines 427-432). -/
structure HistoryEntry where
  reply_id : List Char
  timestamp : List Char
  tweet_text : List Char
  reply_text : List Char
deriving DecidableEq

/-- The persisted history mapping, keyed by `str(tweet_id)`; a Python dict
modelled as an assoc list where the most recent binding shadows. -/
abbrev History := List (List Char × HistoryEntry)

/-- `TweetHistory.has_replied` (lines 421-423): membership of
`str(tweet_id)` among the keys. -/
def has_replied (h : History) (tweet_id : PyId) : Bool :=
  h.any (fun e => e.1 == pyStr tweet_id)

/-- `TweetHistory.add_reply` (lines 425-433): store the record under
`str(tweet_id)` (also stringifying `reply_id`) and persist at once; the
`utcnow` timestamp is injected as `ts`. -/
def add_reply (h : History) (tweet_id reply_id : PyId)
    (tweet_text reply_text ts : List Char) : History :=
  (pyStr tweet_id, ⟨pyStr reply_id, ts, tweet_text, reply_text⟩) :: h

/-- The two rate-limited endpoints of `RateLimitHandler` (lines 365-369). -/
inductive Endpoint where
  | search
  | post
deriving DecidableEq

/-- Line 387: `450 if endpoint == "search" else 50`. -/
def endpointCeiling : Endpoint → Int
  | .search => 450
  | .post => 50

/-- One entry of `RateLimitHandler.rate_limits`. -/
structure Budget where
  remaining : Int
  reset_time : ℚ
deriving DecidableEq

/-- `RateLimitHandler.__init__` (lines 365-369): full ceiling, reset one
900-second window from now. -/
def initBudget (ep : Endpoint) (now : ℚ) : Budget :=
  ⟨endpointCeiling ep, now + 900⟩

/-- `RateLimitHandler.check_and_wait` (lines 379-391).  `now` is the
`time.time()` reading at entry; sleeping for `wait_time + 1` makes the
post-sleep reading `now + wait_time + 1`.  Returns the updated budget and
the time when the call returns.  Note the counter is reset to the ceiling
only inside the `wait_time > 0` branch; the final decrement is
unconditional. -/
def check_and_wait (ep : Endpoint) (now : ℚ) (b : Budget) : Budget × ℚ :=
  if b.remaining ≤ 1 then
    let wait_time := b.reset_time - now
    if 0 < wait_time then
      let now2 := now + wait_time + 1
      (⟨endpointCeiling ep - 1, now2 + 900⟩, now2)
    else (⟨b.remaining - 1, b.reset_time⟩, now)
  else (⟨b.remaining - 1, b.reset_time⟩, now)

/-- A sequence of `check_and_wait` calls on one endpoint, the `i`-th one
entered at the `i`-th listed clock reading. -/
def runCalls (ep : Endpoint) : Budget → List ℚ → Budget
  | b, [] => b
  | b, t :: ts => runCalls ep (check_and_wait ep t b).1 ts

/-- `post_reply` (lines 330-358): the external post capability is the
oracle `postO`; an exception (line 356) or a data-less response (line 353)
yields `(False, None)`, success yields `(True, new_id)`. -/
def post_reply (postO : PyId → List Char → Except (List Char) (Option PyId))
    (tweet_id : PyId) (reply_text : List Char) : Bool × Option PyId :=
  match postO tweet_id reply_text with
  | .ok (some rid) => (true, some rid)
  | .ok none => (false, none)
  | .error _ => (false, none)

/-- The mutable state of one `run_twitter_bot` run (lines 457-458 plus the
handler objects): reply counter, in-memory history, the list of history
snapshots written to storage so far (one per `_save_history` call), the
"post" budget, and cursors into the injected randomness and clock
streams. -/
structure LoopState where
  count : ℕ
  hist : History
  saves : List History
  budget : Budget
  rk : ℕ
  ck : ℕ

/-- The candidate loop of `run_twitter_bot` (lines 461-489): skip
already-answered ids, compose a reply with the "random" persona, pace via
`check_and_wait("post")`, post, and on success record history immediately,
bump the counter and stop once it reaches `max_tweets`; on failure continue
with the next candidate unchanged. -/
def runLoop (postO : PyId → List Char → Except (List Char) (Option PyId))
    (rnds : ℕ → ℕ × ℕ) (clock : ℕ → ℚ) (tss : ℕ → List Char) (maxT : ℕ) :
    List RawPost → LoopState → LoopState
  | [], s => s
  | t :: ts, s =>
    if has_replied s.hist t.id then
      runLoop postO rnds clock tss maxT ts s
    else
      let rp := rnds s.rk
      let reply_text := generate_reply t.text "random".toList rp.1 rp.2
      let bw := check_and_wait .post (clock s.ck) s.budget
      let pr := post_reply postO t.id reply_text
      if pr.1 then
        let rid := pr.2.getD (PyId.pstr "None".toList)
        let h1 := add_reply s.hist t.id rid t.text reply_text (tss s.count)
        let s1 : LoopState := ⟨s.count + 1, h1, s.saves ++ [h1], bw.1, s.rk + 1, s.ck + 1⟩
        if maxT ≤ s1.count then s1 else runLoop postO rnds clock tss maxT ts s1
      else
        runLoop postO rnds clock tss maxT ts
          ⟨s.count, s.hist, s.saves, bw.1, s.rk + 1, s.ck + 1⟩

/-- Fresh loop state over a given history store and "post" budget. -/
def initState (h0 : History) (b0 : Budget) : LoopState :=
  ⟨0, h0, [], b0, 0, 0⟩

/-- The happy part of `run_twitter_bot` (lines 450-491) after
authentication: fresh rate budgets, one `check_and_wait("search")`, search,
then the candidate loop over a history store loaded as `h0`. -/
def run_bot_state (searchRes : Except (List Char) (Option (List RawPost)))
    (postO : PyId → List Char → Except (List Char) (Option PyId))
    (rnds : ℕ → ℕ × ℕ) (clock : ℕ → ℚ) (tss : ℕ → List Char)
    (h0 : History) (now0 : ℚ) (maxT : ℕ) : LoopState :=
  let _sb := (check_and_wait .search (clock 0) (initBudget .search now0)).1
  runLoop postO rnds clock tss maxT (search_crypto_tweets searchRes)
    (initState h0 (initBudget .post now0))

/-- `run_twitter_bot` (lines 436-494): the whole body sits in a `try`
whose handler catches every exception, logs it and returns normally.  The
only operation inside whose exceptions are not already swallowed locally is
`setup_twitter_api` (which re-raises, line 61), injected here as `setup`.
The result is `ok (some count)` on a completed run and `ok none` when the
handler ran (no summary logged, zero replies posted); an uncaught
exception would be `error`, which never occurs. -/
def run_twitter_bot (setup : Except (List Char) Unit)
    (searchRes : Except (List Char) (Option (List RawPost)))
    (postO : PyId → List Char → Except (List Char) (Option PyId))
    (rnds : ℕ → ℕ × ℕ) (clock : ℕ → ℚ) (tss : ℕ → List Char)
    (h0 : History) (now0 : ℚ) (maxT : ℕ) : Except (List Char) (Option ℕ) :=
  match setup with
  | .error _ => .ok none
  | .ok _ =>
    .ok (some (run_bot_state searchRes postO rnds clock tss h0 now0 maxT).count)

/-- The posts of the spec's worked selector example, carrying scores 40,
150, 100 and 300 through their like counts. -/
def examplePost (n : Int) (likes : ℕ) : RawPost :=
  ⟨.pint n, [], likes, 0, 0⟩

/-- Membership of a (stringified) key among the history store's keys;
`has_replied h id = hasKey h (pyStr id)` definitionally. -/
def hasKey (h : History) (k : List Char) : Bool :=
  h.any (fun e => e.1 == k)

/-- A concrete post oracle used in witnesses: the post succeeds (with new
post id 77) for tweet id 2 and raises for every other id. -/
def witnessOracle : PyId → List Char → Except (List Char) (Option PyId) :=
  fun id _ => if id = PyId.pint 2 then Except.ok (some (PyId.pint 77))
    else Except.error []

/-- A concrete always-succeeding post oracle used in witnesses. -/
def okOracle : PyId → List Char → Except (List Char) (Option PyId) :=
  fun _ _ => Except.ok (some (PyId.pint 99))

end TwitterBot

namespace TwitterBot

theorem perm_insertScoreDesc (x : RawPost) (l : List RawPost) :
    List.Perm (insertScoreDesc x l) (x :: l) := by
  induction l with
  | nil => simp [insertScoreDesc]
  | cons y ys ih =>
    simp only [insertScoreDesc]
    split
    · exact ((ih.cons y).trans (List.Perm.swap x y ys))
    · exact List.Perm.refl _

theorem perm_sortScoreDesc (l : List RawPost) : List.Perm (sortScoreDesc l) l := by
  induction l with
  | nil => simp [sortScoreDesc]
  | cons x xs ih =>
    exact (perm_insertScoreDesc x (sortScoreDesc xs)).trans (ih.cons x)

theorem pairwise_insertScoreDesc (x : RawPost) (l : List RawPost)
    (hl : l.Pairwise (fun a b => engagement_score b ≤ engagement_score a)) :
    (insertScoreDesc x l).Pairwise
      (fun a b => engagement_score b ≤ engagement_score a) := by
  induction l with
  | nil => simp [insertScoreDesc]
  | cons y ys ih =>
    rw [List.pairwise_cons] at hl
    simp only [insertScoreDesc]
    split
    · rename_i hlt
      rw [List.pairwise_cons]
      constructor
      · intro z hz
        rcases List.mem_cons.1 (((perm_insertScoreDesc x ys).mem_iff).1 hz) with hzx | hzy
        · exact hzx ▸ le_of_lt hlt
        · exact hl.1 z hzy
      · exact ih hl.2
    · rename_i hge
      push_neg at hge
      rw [List.pairwise_cons]
      constructor
      · intro z hz
        rcases List.mem_cons.1 hz with hzy | hzys
        · exact hzy ▸ hge
        · exact le_trans (hl.1 z hzys) hge
      · exact List.pairwise_cons.2 hl

theorem pairwise_sortScoreDesc (l : List RawPost) :
    (sortScoreDesc l).Pairwise (fun a b => engagement_score b ≤ engagement_score a) := by
  induction l with
  | nil => simp [sortScoreDesc]
  | cons x xs ih => exact pairwise_insertScoreDesc x (sortScoreDesc xs) ih

theorem filter_insertScoreDesc (x : RawPost) (l : List RawPost) (s : ℚ) :
    (insertScoreDesc x l).filter (fun t => decide (engagement_score t = s)) =
      if engagement_score x = s then
        x :: l.filter (fun t => decide (engagement_score t = s))
      else l.filter (fun t => decide (engagement_score t = s)) := by
  induction l with
  | nil =>
    by_cases h : engagement_score x = s <;> simp [insertScoreDesc, h]
  | cons y ys ih =>
    simp only [insertScoreDesc]
    by_cases hxy : engagement_score x < engagement_score y
    · rw [if_pos hxy]
      by_cases hys : engagement_score y = s
      · have hxs : ¬ engagement_score x = s := by
          intro hx
          rw [hx, hys] at hxy
          exact lt_irrefl s hxy
        simp [List.filter_cons, hys, hxs, ih]
      · by_cases hxs : engagement_score x = s <;>
          simp [List.filter_cons, hys, hxs, ih]
    · rw [if_neg hxy]
      by_cases hxs : engagement_score x = s <;>
        by_cases hys : engagement_score y = s <;>
          simp [List.filter_cons, hxs, hys]

theorem filter_sortScoreDesc (l : List RawPost) (s : ℚ) :
    (sortScoreDesc l).filter (fun t => decide (engagement_score t = s)) =
      l.filter (fun t => decide (engagement_score t = s)) := by
  induction l with
  | nil => simp [sortScoreDesc]
  | cons x xs ih =>
    simp only [sortScoreDesc, filter_insertScoreDesc, List.filter_cons]
    split
    · rename_i h; simp [h, ih]
    · rename_i h; simp [h, ih]

end TwitterBot

namespace TwitterBot

/-- Claim C2: for every metrics triple (likes l, reposts r, replies rp) of
non-negative integers the computed engagement score equals
l + 2*r + 1.5*rp, and a candidate whose score is exactly the threshold 100
is included in the selector output (inclusive boundary). -/
theorem engagement_scoring_inclusive :
    (∀ (i : PyId) (tx : List Char) (l r rp : ℕ),
        engagement_score ⟨i, tx, l, r, rp⟩ = (l : ℚ) + 2 * (r : ℚ) + 1.5 * (rp : ℚ))
    ∧ ∀ (posts : List RawPost) (t : RawPost),
        t ∈ posts → engagement_score t = 100 → t ∈ select_candidates posts := by
  constructor
  · intro i tx l r rp
    simp only [engagement_score]
    ring
  · intro posts t ht hs
    have hmem : t ∈ posts.filter (fun u => decide ((100 : ℚ) ≤ engagement_score u)) :=
      List.mem_filter.2 ⟨ht, by simp [hs]⟩
    simp only [select_candidates]
    exact ((perm_sortScoreDesc _).mem_iff).2 hmem

/-- Witness for C2 at a concrete candidate whose score is exactly 100. -/
theorem engagement_scoring_inclusive_witness :
    examplePost 3 100 ∈ [examplePost 3 100]
    ∧ engagement_score (examplePost 3 100) = 100
    ∧ examplePost 3 100 ∈ select_candidates [examplePost 3 100] := by
  refine ⟨List.mem_singleton.2 rfl, by norm_num [engagement_score, examplePost], ?_⟩
  exact engagement_scoring_inclusive.2 _ _ (List.mem_singleton.2 rfl)
    (by norm_num [engagement_score, examplePost])

/-- Claim C3: the selector returns exactly the candidates at or above the
threshold (as a permutation of the filtered input), sorted by engagement
score descending, equal scores keeping their original order (stable sort);
and on the spec's concrete input with scores [40, 150, 100, 300] the output
is exactly [300, 150, 100] in that order. -/
theorem selector_filter_sort_stable :
    (∀ posts : List RawPost,
        List.Perm (select_candidates posts)
            (posts.filter (fun t => decide ((100 : ℚ) ≤ engagement_score t)))
          ∧ (select_candidates posts).Pairwise
              (fun a b => engagement_score b ≤ engagement_score a)
          ∧ ∀ s : ℚ,
              (select_candidates posts).filter
                  (fun t => decide (engagement_score t = s)) =
                (posts.filter (fun t => decide ((100 : ℚ) ≤ engagement_score t))).filter
                  (fun t => decide (engagement_score t = s)))
    ∧ select_candidates [examplePost 1 40, examplePost 2 150, examplePost 3 100,
          examplePost 4 300] =
        [examplePost 4 300, examplePost 2 150, examplePost 3 100] := by
  constructor
  · intro posts
    exact ⟨perm_sortScoreDesc _, pairwise_sortScoreDesc _,
      fun s => filter_sortScoreDesc _ s⟩
  · norm_num [select_candidates, sortScoreDesc, insertScoreDesc, engagement_score,
      examplePost, List.filter_cons]

/-- Claim C10: immediately after `add_reply(id, ...)` the call
`has_replied(id)` is true, and `has_replied` treats an integer id and its
string form identically, both operations keying the store by
`str(tweet_id)`. -/
theorem history_stringified_roundtrip :
    (∀ (h : History) (id rid : PyId) (a b ts : List Char),
        has_replied (add_reply h id rid a b ts) id = true)
    ∧ (∀ (h : History) (n : Int),
        has_replied h (PyId.pint n) = has_replied h (PyId.pstr (toString n).toList))
    ∧ ∀ (h : History) (n : Int) (rid : PyId) (a b ts : List Char),
        has_replied (add_reply h (PyId.pint n) rid a b ts)
          (PyId.pstr (toString n).toList) = true := by
  refine ⟨?_, ?_, ?_⟩
  · intro h id rid a b ts
    simp [has_replied, add_reply]
  · intro h n
    rfl
  · intro h n rid a b ts
    simp [has_replied, add_reply, pyStr]


theorem find?_of_first {α : Type} (p : α → Bool) :
    ∀ (l : List α) (i : Fin l.length),
      p (l.get i) = true →
      (∀ x ∈ l.take (i : ℕ), p x = false) →
      l.find? p = some (l.get i) := by
  intro l
  induction l with
  | nil => intro i; exact absurd i.isLt (by simp)
  | cons a as ih =>
    intro i hp htake
    rcases i with ⟨iv, hlt⟩
    cases iv with
    | zero =>
      simp only [List.get] at hp
      simp [List.find?_cons, hp]
    | succ k =>
      have ha : p a = false := by
        refine htake a ?_
        rw [List.take_succ_cons]
        exact List.mem_cons_self a _
      have hrec := ih ⟨k, by simpa using hlt⟩ hp
        (fun x hx => htake x (by
          rw [List.take_succ_cons]
          exact List.mem_cons_of_mem a hx))
      simp only [List.get] at hrec ⊢
      rw [List.find?_cons_of_neg _ (by simp [ha]), hrec]

/-- Claim C5: `detect_tweet_context` lower-cases the text and tests the
categories in the fixed order market_volatility, airdrops, staking, nft,
defi, regulation, returning the first category with a keyword occurring in
the lowered text, and returning the default category (spelled
"general_crypto" in the code) when no keyword of any category matches. -/
theorem detect_priority_order :
    ∀ text : List Char,
      ((∀ p ∈ contexts, catMatches p.2 (pyLower text) = false) →
          detect_tweet_context text = "general_crypto".toList)
      ∧ ∀ i : Fin contexts.length,
          catMatches (contexts.get i).2 (pyLower text) = true →
          (∀ p ∈ contexts.take (i : ℕ),
            catMatches p.2 (pyLower text) = false) →
          detect_tweet_context text = (contexts.get i).1 := by
  intro text
  constructor
  · intro hnone
    have hfind : contexts.find? (fun p => catMatches p.2 (pyLower text)) = none :=
      List.find?_eq_none.2 (fun p hp => by simp [hnone p hp])
    simp [detect_tweet_context, hfind]
  · intro i hi hj
    have hfind := find?_of_first (fun p => catMatches p.2 (pyLower text)) contexts i hi hj
    simp [detect_tweet_context, hfind]

/-- Witness for C5: a text matching both the market_volatility and the
airdrops keyword sets resolves to market_volatility, which is checked
first. -/
theorem detect_priority_order_witness :
    catMatches (["airdrop"].map String.toList) (pyLower "Airdrop price pump!".toList) = true
    ∧ catMatches (contexts.get ⟨0, by decide⟩).2 (pyLower "Airdrop price pump!".toList) = true
    ∧ detect_tweet_context "Airdrop price pump!".toList = "market_volatility".toList := by
  refine ⟨by decide, by decide, ?_⟩
  have h := (detect_priority_order ("Airdrop price pump!".toList)).2 ⟨0, by decide⟩
    (by decide) (fun p hp => by simp [contexts] at hp)
  simpa using h


theorem apply_length_limit_le (t : List Char) : (apply_length_limit t).length ≤ 250 := by
  simp only [apply_length_limit]
  split
  · rename_i h
    have h3 : ("...".toList).length = 3 := rfl
    rw [List.length_append, List.length_take, h3]
    omega
  · rename_i h
    omega

theorem generate_reply_body_shape (text persona : List Char) (k1 k2 : ℕ)
    (r : List Char) (h : generate_reply_body text persona k1 k2 = some r) :
    ∃ u, r = apply_length_limit u := by
  unfold generate_reply_body at h
  rcases hsel : (if persona = "random".toList then pyChoice personas k1
      else some persona) with _ | persona1
  · rw [hsel] at h
    exact absurd h (by simp)
  · rw [hsel] at h
    dsimp only at h
    rcases ht : generate_template_reply text (detect_tweet_context text)
        (if persona1 ∈ personas then persona1 else "insider".toList) k2 with _ | reply
    · rw [ht] at h
      exact absurd h (by simp)
    · rw [ht] at h
      simp only [Option.some.injEq] at h
      exact ⟨reply, h.symm⟩

/-- Claim C4: for every input text and persona argument (and every
outcome of the injected random picks) the composed reply has at most 250
code points; and whenever the chosen text exceeds 250 code points the
length-enforcement step yields exactly 250 code points, namely the first
247 followed by the 3-character truncation marker. -/
theorem composer_length_bound :
    (∀ (text persona : List Char) (k1 k2 : ℕ),
        (generate_reply text persona k1 k2).length ≤ 250)
    ∧ ∀ t : List Char, 250 < t.length →
        apply_length_limit t = t.take 247 ++ "...".toList
        ∧ (apply_length_limit t).length = 250
        ∧ ∃ pre, apply_length_limit t = pre ++ "...".toList := by
  constructor
  · intro text persona k1 k2
    simp only [generate_reply]
    split
    · rename_i r hr
      obtain ⟨u, hu⟩ := generate_reply_body_shape _ _ _ _ _ hr
      exact hu ▸ apply_length_limit_le u
    · decide
  · intro t ht
    have he : apply_length_limit t = t.take 247 ++ "...".toList := by
      simp [apply_length_limit, ht]
    refine ⟨he, ?_, ⟨t.take 247, he⟩⟩
    have h3 : ("...".toList).length = 3 := rfl
    rw [he, List.length_append, List.length_take, h3]
    omega

/-- Witness for C4 at a concrete 251-character text. -/
theorem composer_length_bound_witness :
    250 < (List.replicate 251 'a').length
    ∧ (apply_length_limit (List.replicate 251 'a') =
          (List.replicate 251 'a').take 247 ++ "...".toList
        ∧ (apply_length_limit (List.replicate 251 'a')).length = 250
        ∧ ∃ pre, apply_length_limit (List.replicate 251 'a') =
            pre ++ "...".toList) :=
  ⟨by rw [List.length_replicate]; norm_num,
    composer_length_bound.2 (List.replicate 251 'a')
      (by rw [List.length_replicate]; norm_num)⟩

/-- Claim C9: for every input text and persona argument (including
undefined persona names) and every outcome of the injected random picks,
`generate_reply` returns some string and never raises: when the `try` body
escapes with an exception the fixed neutral fallback reply is returned,
and otherwise the body's string is returned unchanged. -/
theorem composer_never_raises :
    ∀ (text persona : List Char) (k1 k2 : ℕ),
      (∃ r : List Char, generate_reply text persona k1 k2 = r)
      ∧ (generate_reply_body text persona k1 k2 = none →
          generate_reply text persona k1 k2 = fallback_reply)
      ∧ ∀ s : List Char, generate_reply_body text persona k1 k2 = some s →
          generate_reply text persona k1 k2 = s := by
  intro text persona k1 k2
  refine ⟨⟨_, rfl⟩, ?_, ?_⟩
  · intro h
    simp only [generate_reply, h]
  · intro r h
    simp only [generate_reply, h]

/-- Witness for C9: on a concrete text and persona the body succeeds and
its reply is returned verbatim. -/
theorem composer_never_raises_witness :
    generate_reply_body "gm".toList "insider".toList 0 0 =
      some ("The narrative shifts but the fundamentals remain. Those who know are quietly building.".toList)
    ∧ generate_reply "gm".toList "insider".toList 0 0 =
      "The narrative shifts but the fundamentals remain. Those who know are quietly building.".toList :=
  ⟨by decide, (composer_never_raises "gm".toList "insider".toList 0 0).2.2 _ (by decide)⟩


theorem runCalls_append (ep : Endpoint) (b : Budget) (l1 l2 : List ℚ) :
    runCalls ep b (l1 ++ l2) = runCalls ep (runCalls ep b l1) l2 := by
  induction l1 generalizing b with
  | nil => rfl
  | cons t ts ih => simp [runCalls, ih]

theorem runCalls_no_reset (ep : Endpoint) (n : ℕ) (t : ℚ) :
    ∀ b : Budget, (n : Int) ≤ b.remaining - 1 →
      runCalls ep b (List.replicate n t) = ⟨b.remaining - n, b.reset_time⟩ := by
  induction n with
  | zero =>
    intro b h
    cases b
    simp [runCalls]
  | succ k ih =>
    intro b h
    have hb : ¬ b.remaining ≤ 1 := by
      push_cast at h
      omega
    rw [List.replicate_succ]
    simp only [runCalls, check_and_wait, if_neg hb]
    rw [ih ⟨b.remaining - 1, b.reset_time⟩ (by push_cast at h ⊢; omega)]
    simp only [Budget.mk.injEq]
    refine ⟨by push_cast; omega, trivial⟩

/-- Claim C6 (refuted, code bug): on a fresh handler, 49 "post" calls
inside the window followed by two calls after `reset_time` has passed
drive `remaining` to -1: when the window has already elapsed the code
skips the reset (it sits inside the `wait_time > 0` branch) yet still
decrements unconditionally, so `remaining` does not stay non-negative. -/
theorem rate_budget_goes_negative :
    (runCalls .post (initBudget .post 0)
        (List.replicate 49 0 ++ [901, 902])).remaining = -1 := by
  rw [runCalls_append,
    runCalls_no_reset .post 49 0 (initBudget .post 0)
      (by norm_num [initBudget, endpointCeiling])]
  norm_num [initBudget, endpointCeiling, runCalls, check_and_wait]


theorem hasKey_add (h : History) (id rid : PyId) (a b ts k : List Char) :
    hasKey (add_reply h id rid a b ts) k = ((pyStr id == k) || hasKey h k) := by
  simp [hasKey, add_reply]

theorem runLoop_hasKey_mono (postO : PyId → List Char → Except (List Char) (Option PyId))
    (rnds : ℕ → ℕ × ℕ) (clock : ℕ → ℚ) (tss : ℕ → List Char) (maxT : ℕ)
    (ts : List RawPost) (s : LoopState) (k : List Char) :
    hasKey s.hist k = true →
      hasKey (runLoop postO rnds clock tss maxT ts s).hist k = true := by
  induction ts, s using runLoop.induct postO rnds clock tss maxT with
  | case1 s =>
    intro hk
    simpa [runLoop] using hk
  | case2 t ts s hrep ih =>
    intro hk
    rw [runLoop, if_pos hrep]
    exact ih hk
  | case3 t ts s hnr rp reply_text bw pr hpr rid h1 s1 hbreak =>
    intro hk
    rw [runLoop, if_neg hnr, if_pos hpr, if_pos hbreak]
    show hasKey (add_reply s.hist t.id rid t.text reply_text (tss s.count)) k = true
    rw [hasKey_add, hk, Bool.or_true]
  | case4 t ts s hnr rp reply_text bw pr hpr rid h1 s1 hnb ih =>
    intro hk
    rw [runLoop, if_neg hnr, if_pos hpr, if_neg hnb]
    refine ih ?_
    show hasKey (add_reply s.hist t.id rid t.text reply_text (tss s.count)) k = true
    rw [hasKey_add, hk, Bool.or_true]
  | case5 t ts s hnr rp reply_text bw pr hpf ih =>
    intro hk
    rw [runLoop, if_neg hnr, if_neg hpf]
    exact ih hk

theorem runLoop_all_skipped (postO : PyId → List Char → Except (List Char) (Option PyId))
    (rnds : ℕ → ℕ × ℕ) (clock : ℕ → ℚ) (tss : ℕ → List Char) (maxT : ℕ)
    (ts : List RawPost) (s : LoopState)
    (hall : ∀ t ∈ ts, has_replied s.hist t.id = true) :
    runLoop postO rnds clock tss maxT ts s = s := by
  induction ts with
  | nil => rfl
  | cons u us ih =>
    rw [runLoop, if_pos (hall u (List.mem_cons_self u us))]
    exact ih (fun t ht => hall t (List.mem_cons_of_mem u ht))

theorem runLoop_saves_count (postO : PyId → List Char → Except (List Char) (Option PyId))
    (rnds : ℕ → ℕ × ℕ) (clock : ℕ → ℚ) (tss : ℕ → List Char) (maxT : ℕ)
    (ts : List RawPost) (s : LoopState) :
    (runLoop postO rnds clock tss maxT ts s).saves.length + s.count =
      (runLoop postO rnds clock tss maxT ts s).count + s.saves.length := by
  induction ts, s using runLoop.induct postO rnds clock tss maxT with
  | case1 s =>
    rw [runLoop]
    omega
  | case2 t ts s hrep ih =>
    rw [runLoop, if_pos hrep]
    exact ih
  | case3 t ts s hnr rp reply_text bw pr hpr rid h1 s1 hbreak =>
    rw [runLoop, if_neg hnr, if_pos hpr, if_pos hbreak]
    show (s.saves ++ [h1]).length + s.count = (s.count + 1) + s.saves.length
    rw [List.length_append]
    have hone : ([h1] : List History).length = 1 := rfl
    omega
  | case4 t ts s hnr rp reply_text bw pr hpr rid h1 s1 hnb ih =>
    rw [runLoop, if_neg hnr, if_pos hpr, if_neg hnb]
    show (runLoop postO rnds clock tss maxT ts s1).saves.length + s.count =
      (runLoop postO rnds clock tss maxT ts s1).count + s.saves.length
    have h2 : s1.saves.length = s.saves.length + 1 := by
      show (s.saves ++ [h1]).length = s.saves.length + 1
      rw [List.length_append]
      rfl
    have h3 : s1.count = s.count + 1 := rfl
    omega
  | case5 t ts s hnr rp reply_text bw pr hpf ih =>
    rw [runLoop, if_neg hnr, if_neg hpf]
    exact ih

theorem runLoop_all_recorded (postO : PyId → List Char → Except (List Char) (Option PyId))
    (rnds : ℕ → ℕ × ℕ) (clock : ℕ → ℚ) (tss : ℕ → List Char) (maxT : ℕ)
    (ts : List RawPost) (s : LoopState) :
    (∀ t ∈ ts, ∀ txt, (post_reply postO t.id txt).1 = true) →
    s.count + ts.length ≤ maxT →
    ∀ t ∈ ts,
      hasKey (runLoop postO rnds clock tss maxT ts s).hist (pyStr t.id) = true := by
  induction ts, s using runLoop.induct postO rnds clock tss maxT with
  | case1 s =>
    intro _ _ t ht
    exact absurd ht (List.not_mem_nil t)
  | case2 t ts s hrep ih =>
    intro hsucc hcnt u hu
    rw [runLoop, if_pos hrep]
    rcases List.mem_cons.1 hu with rfl | hus
    · exact runLoop_hasKey_mono postO rnds clock tss maxT ts s (pyStr u.id) hrep
    · refine ih (fun v hv => hsucc v (List.mem_cons_of_mem t hv)) ?_ u hus
      simp only [List.length_cons] at hcnt
      omega
  | case3 t ts s hnr rp reply_text bw pr hpr rid h1 s1 hbreak =>
    intro hsucc hcnt u hu
    rw [runLoop, if_neg hnr, if_pos hpr, if_pos hbreak]
    have h3 : s1.count = s.count + 1 := rfl
    have hts : ts = [] := by
      simp only [List.length_cons] at hcnt
      have hl : ts.length = 0 := by omega
      exact List.eq_nil_of_length_eq_zero hl
    subst hts
    rcases List.mem_cons.1 hu with rfl | hus
    · show hasKey (add_reply s.hist u.id rid u.text reply_text (tss s.count))
        (pyStr u.id) = true
      rw [hasKey_add]
      simp
    · exact absurd hus (List.not_mem_nil u)
  | case4 t ts s hnr rp reply_text bw pr hpr rid h1 s1 hnb ih =>
    intro hsucc hcnt u hu
    rw [runLoop, if_neg hnr, if_pos hpr, if_neg hnb]
    rcases List.mem_cons.1 hu with rfl | hus
    · refine runLoop_hasKey_mono postO rnds clock tss maxT ts s1 (pyStr u.id) ?_
      show hasKey (add_reply s.hist u.id rid u.text reply_text (tss s.count))
        (pyStr u.id) = true
      rw [hasKey_add]
      simp
    · refine ih (fun v hv => hsucc v (List.mem_cons_of_mem t hv)) ?_ u hus
      have h3 : s1.count = s.count + 1 := rfl
      simp only [List.length_cons] at hcnt
      omega
  | case5 t ts s hnr rp reply_text bw pr hpf ih =>
    intro hsucc hcnt u hu
    exact absurd (hsucc t (List.mem_cons_self t ts) reply_text) hpf

theorem runLoop_failed_no_record
    (postO : PyId → List Char → Except (List Char) (Option PyId))
    (rnds : ℕ → ℕ × ℕ) (clock : ℕ → ℚ) (tss : ℕ → List Char) (maxT : ℕ)
    (ts : List RawPost) (s : LoopState) (k : List Char) :
    (∀ u ∈ ts, pyStr u.id = k → ∀ txt, (post_reply postO u.id txt).1 = false) →
    hasKey s.hist k = false →
    hasKey (runLoop postO rnds clock tss maxT ts s).hist k = false := by
  induction ts, s using runLoop.induct postO rnds clock tss maxT with
  | case1 s =>
    intro _ hk
    simpa [runLoop] using hk
  | case2 t ts s hrep ih =>
    intro hfail hk
    rw [runLoop, if_pos hrep]
    exact ih (fun u hu => hfail u (List.mem_cons_of_mem t hu)) hk
  | case3 t ts s hnr rp reply_text bw pr hpr rid h1 s1 hbreak =>
    intro hfail hk
    rw [runLoop, if_neg hnr, if_pos hpr, if_pos hbreak]
    show hasKey (add_reply s.hist t.id rid t.text reply_text (tss s.count)) k = false
    have hne : pyStr t.id ≠ k := by
      intro he
      have hf : pr.1 = false := hfail t (List.mem_cons_self t ts) he reply_text
      rw [hf] at hpr
      exact Bool.false_ne_true hpr
    rw [hasKey_add, hk, Bool.or_false]
    exact beq_eq_false_iff_ne.2 hne
  | case4 t ts s hnr rp reply_text bw pr hpr rid h1 s1 hnb ih =>
    intro hfail hk
    rw [runLoop, if_neg hnr, if_pos hpr, if_neg hnb]
    refine ih (fun u hu => hfail u (List.mem_cons_of_mem t hu)) ?_
    show hasKey (add_reply s.hist t.id rid t.text reply_text (tss s.count)) k = false
    have hne : pyStr t.id ≠ k := by
      intro he
      have hf : pr.1 = false := hfail t (List.mem_cons_self t ts) he reply_text
      rw [hf] at hpr
      exact Bool.false_ne_true hpr
    rw [hasKey_add, hk, Bool.or_false]
    exact beq_eq_false_iff_ne.2 hne
  | case5 t ts s hnr rp reply_text bw pr hpf ih =>
    intro hfail hk
    rw [runLoop, if_neg hnr, if_neg hpf]
    exact ih (fun u hu => hfail u (List.mem_cons_of_mem t hu)) hk


theorem runLoop_single_fail_cons
    (postO : PyId → List Char → Except (List Char) (Option PyId))
    (rnds : ℕ → ℕ × ℕ) (clock : ℕ → ℚ) (tss : ℕ → List Char) (maxT : ℕ)
    (t : RawPost) (ts : List RawPost) (s : LoopState)
    (hrep : has_replied s.hist t.id = false)
    (hf : ∀ txt, (post_reply postO t.id txt).1 = false) :
    runLoop postO rnds clock tss maxT (t :: ts) s =
      runLoop postO rnds clock tss maxT ts
        ⟨s.count, s.hist, s.saves, (check_and_wait Endpoint.post (clock s.ck) s.budget).1,
          s.rk + 1, s.ck + 1⟩ := by
  rw [runLoop, if_neg (by simp [hrep]),
    if_neg (by intro hc; rw [hf _] at hc; exact Bool.false_ne_true hc)]

theorem runLoop_single_success
    (postO : PyId → List Char → Except (List Char) (Option PyId))
    (rnds : ℕ → ℕ × ℕ) (clock : ℕ → ℚ) (tss : ℕ → List Char) (maxT : ℕ)
    (t : RawPost) (s : LoopState)
    (hrep : has_replied s.hist t.id = false)
    (hs : ∀ txt, (post_reply postO t.id txt).1 = true) :
    (runLoop postO rnds clock tss maxT [t] s).count = s.count + 1
    ∧ ∀ k, hasKey (runLoop postO rnds clock tss maxT [t] s).hist k =
        ((pyStr t.id == k) || hasKey s.hist k) := by
  rw [runLoop, if_neg (by simp [hrep]), if_pos (hs _)]
  dsimp only
  constructor
  · split
    · rfl
    · rfl
  · intro k
    split
    · exact hasKey_add _ _ _ _ _ _ _
    · exact hasKey_add _ _ _ _ _ _ _

/-- Claim C7: a candidate whose post fails gets no history record (as long
as no same-keyed candidate succeeds) and does not advance the reply count,
and the run continues; in particular with a first candidate whose post
fails and a second whose post succeeds, the run ends with reply count 1,
no record for the failed candidate and a record for the successful one. -/
theorem post_failure_skip_and_continue :
    (∀ (postO : PyId → List Char → Except (List Char) (Option PyId))
        (rnds : ℕ → ℕ × ℕ) (clock : ℕ → ℚ) (tss : ℕ → List Char) (maxT : ℕ)
        (ts : List RawPost) (s : LoopState) (t : RawPost),
        t ∈ ts →
        (∀ u ∈ ts, pyStr u.id = pyStr t.id →
          ∀ txt, (post_reply postO u.id txt).1 = false) →
        hasKey s.hist (pyStr t.id) = false →
        hasKey (runLoop postO rnds clock tss maxT ts s).hist (pyStr t.id) = false)
    ∧ ∀ (postO : PyId → List Char → Except (List Char) (Option PyId))
        (rnds : ℕ → ℕ × ℕ) (clock : ℕ → ℚ) (tss : ℕ → List Char)
        (h0 : History) (b0 : Budget) (maxT : ℕ) (t1 t2 : RawPost),
        (∀ txt, (post_reply postO t1.id txt).1 = false) →
        (∀ txt, (post_reply postO t2.id txt).1 = true) →
        hasKey h0 (pyStr t1.id) = false →
        hasKey h0 (pyStr t2.id) = false →
        pyStr t1.id ≠ pyStr t2.id →
        (runLoop postO rnds clock tss maxT [t1, t2] (initState h0 b0)).count = 1
        ∧ hasKey (runLoop postO rnds clock tss maxT [t1, t2]
            (initState h0 b0)).hist (pyStr t1.id) = false
        ∧ hasKey (runLoop postO rnds clock tss maxT [t1, t2]
            (initState h0 b0)).hist (pyStr t2.id) = true := by
  constructor
  · intro postO rnds clock tss maxT ts s t ht hfail hk
    exact runLoop_failed_no_record postO rnds clock tss maxT ts s (pyStr t.id) hfail hk
  · intro postO rnds clock tss h0 b0 maxT t1 t2 hf1 hs2 hk1 hk2 hne
    have e1 := runLoop_single_fail_cons postO rnds clock tss maxT t1 [t2]
      (initState h0 b0) hk1 hf1
    have hbeq : (pyStr t2.id == pyStr t1.id) = false :=
      beq_eq_false_iff_ne.2 (Ne.symm hne)
    obtain ⟨ec, eh⟩ := runLoop_single_success postO rnds clock tss maxT t2
      (⟨0, h0, [], (check_and_wait Endpoint.post (clock 0) b0).1, 1, 1⟩ : LoopState)
      hk2 hs2
    refine ⟨?_, ?_, ?_⟩
    · rw [e1]
      simp only [initState, Nat.zero_add]
      rw [ec]
    · rw [e1]
      simp only [initState, Nat.zero_add]
      rw [eh (pyStr t1.id)]
      simp only [hbeq, Bool.false_or]
      exact hk1
    · rw [e1]
      simp only [initState, Nat.zero_add]
      rw [eh (pyStr t2.id)]
      simp


/-- Claim C1: running the orchestrator twice with identical search results
and a shared history store (the second run starts from the history the
first run produced), with every post of the first run succeeding and the
quota not cutting the first run short, makes the second run post zero
replies: every candidate replied to in run one is skipped by the
`has_replied` check.  Moreover the first run writes the store exactly once
per posted reply (persisted immediately, never batched), and the
orchestrator entry point reports the second run as `ok` with zero
replies. -/
theorem run_idempotent_dedupe
    (searchRes : Except (List Char) (Option (List RawPost)))
    (postO postO2 : PyId → List Char → Except (List Char) (Option PyId))
    (rnds rnds2 : ℕ → ℕ × ℕ) (clock clock2 : ℕ → ℚ) (tss tss2 : ℕ → List Char)
    (h0 : History) (now0 now02 : ℚ) (maxT maxT2 : ℕ)
    (hsucc : ∀ t ∈ search_crypto_tweets searchRes, ∀ txt,
      (post_reply postO t.id txt).1 = true)
    (hlen : (search_crypto_tweets searchRes).length ≤ maxT) :
    (run_bot_state searchRes postO2 rnds2 clock2 tss2
        (run_bot_state searchRes postO rnds clock tss h0 now0 maxT).hist
        now02 maxT2).count = 0
    ∧ (run_bot_state searchRes postO rnds clock tss h0 now0 maxT).saves.length =
        (run_bot_state searchRes postO rnds clock tss h0 now0 maxT).count
    ∧ run_twitter_bot (Except.ok ()) searchRes postO2 rnds2 clock2 tss2
        (run_bot_state searchRes postO rnds clock tss h0 now0 maxT).hist
        now02 maxT2 = Except.ok (some 0) := by
  have hall : ∀ t ∈ search_crypto_tweets searchRes,
      hasKey (run_bot_state searchRes postO rnds clock tss h0 now0 maxT).hist
        (pyStr t.id) = true := by
    intro t ht
    exact runLoop_all_recorded postO rnds clock tss maxT
      (search_crypto_tweets searchRes) (initState h0 (initBudget .post now0))
      hsucc (by simpa [initState] using hlen) t ht
  have hzero : run_bot_state searchRes postO2 rnds2 clock2 tss2
      (run_bot_state searchRes postO rnds clock tss h0 now0 maxT).hist now02 maxT2 =
      initState (run_bot_state searchRes postO rnds clock tss h0 now0 maxT).hist
        (initBudget .post now02) :=
    runLoop_all_skipped postO2 rnds2 clock2 tss2 maxT2 (search_crypto_tweets searchRes)
      (initState (run_bot_state searchRes postO rnds clock tss h0 now0 maxT).hist
        (initBudget .post now02))
      (fun t ht => hall t ht)
  refine ⟨?_, ?_, ?_⟩
  · rw [hzero]
    rfl
  · have hsc := runLoop_saves_count postO rnds clock tss maxT
      (search_crypto_tweets searchRes) (initState h0 (initBudget .post now0))
    simpa [initState] using hsc
  · show Except.ok (some (run_bot_state searchRes postO2 rnds2 clock2 tss2
        (run_bot_state searchRes postO rnds clock tss h0 now0 maxT).hist
        now02 maxT2).count) = Except.ok (some 0)
    rw [hzero]
    rfl

/-- Claim C8: whatever the external collaborators do — including a failing
credential setup, modelled as `setup = error` — `run_twitter_bot` returns
normally (an `ok` value), never propagating an exception; on a setup
failure the run ends with no replies posted (`ok none`). -/
theorem orchestrator_never_raises :
    ∀ (setup : Except (List Char) Unit)
      (searchRes : Except (List Char) (Option (List RawPost)))
      (postO : PyId → List Char → Except (List Char) (Option PyId))
      (rnds : ℕ → ℕ × ℕ) (clock : ℕ → ℚ) (tss : ℕ → List Char)
      (h0 : History) (now0 : ℚ) (maxT : ℕ),
      (∃ r, run_twitter_bot setup searchRes postO rnds clock tss h0 now0 maxT =
        Except.ok r)
      ∧ ∀ e : List Char, setup = Except.error e →
          run_twitter_bot setup searchRes postO rnds clock tss h0 now0 maxT =
            Except.ok none := by
  intro setup searchRes postO rnds clock tss h0 now0 maxT
  constructor
  · cases setup with
    | error e => exact ⟨none, rfl⟩
    | ok u => exact ⟨some (run_bot_state searchRes postO rnds clock tss h0 now0 maxT).count, rfl⟩
  · intro e he
    subst he
    rfl


/-- Witness for C1 at a concrete one-candidate search result. -/
theorem run_idempotent_dedupe_witness :
    (∀ t ∈ search_crypto_tweets (Except.ok (some [examplePost 7 200])), ∀ txt,
        (post_reply okOracle t.id txt).1 = true)
    ∧ (search_crypto_tweets (Except.ok (some [examplePost 7 200]))).length ≤ 1
    ∧ (run_bot_state (Except.ok (some [examplePost 7 200])) okOracle
          (fun _ => (0, 0)) (fun _ => (0 : ℚ)) (fun _ => [])
          (run_bot_state (Except.ok (some [examplePost 7 200])) okOracle
            (fun _ => (0, 0)) (fun _ => (0 : ℚ)) (fun _ => []) [] 0 1).hist
          0 1).count = 0 := by
  have h1 : ∀ t ∈ search_crypto_tweets (Except.ok (some [examplePost 7 200])),
      ∀ txt, (post_reply okOracle t.id txt).1 = true := fun t ht txt => rfl
  have h2 : (search_crypto_tweets (Except.ok (some [examplePost 7 200]))).length ≤ 1 := by
    norm_num [search_crypto_tweets, select_candidates, sortScoreDesc, insertScoreDesc,
      engagement_score, examplePost, List.filter_cons]
  exact ⟨h1, h2,
    (run_idempotent_dedupe _ _ _ _ _ _ _ _ _ _ _ _ _ _ h1 h2).1⟩

/-- Witness for C7: concrete two-candidate run where the first post fails
and the second succeeds. -/
theorem post_failure_skip_and_continue_witness :
    (∀ txt, (post_reply witnessOracle (RawPost.mk (PyId.pint 1) [] 0 0 0).id txt).1 = false)
    ∧ (∀ txt, (post_reply witnessOracle (RawPost.mk (PyId.pint 2) [] 0 0 0).id txt).1 = true)
    ∧ hasKey [] (pyStr (RawPost.mk (PyId.pint 1) [] 0 0 0).id) = false
    ∧ hasKey [] (pyStr (RawPost.mk (PyId.pint 2) [] 0 0 0).id) = false
    ∧ pyStr (RawPost.mk (PyId.pint 1) [] 0 0 0).id ≠
        pyStr (RawPost.mk (PyId.pint 2) [] 0 0 0).id
    ∧ ((runLoop witnessOracle (fun _ => (0, 0)) (fun _ => (0 : ℚ)) (fun _ => []) 5
          [RawPost.mk (PyId.pint 1) [] 0 0 0, RawPost.mk (PyId.pint 2) [] 0 0 0]
          (initState [] ⟨50, 900⟩)).count = 1
        ∧ hasKey (runLoop witnessOracle (fun _ => (0, 0)) (fun _ => (0 : ℚ)) (fun _ => []) 5
            [RawPost.mk (PyId.pint 1) [] 0 0 0, RawPost.mk (PyId.pint 2) [] 0 0 0]
            (initState [] ⟨50, 900⟩)).hist
            (pyStr (RawPost.mk (PyId.pint 1) [] 0 0 0).id) = false
        ∧ hasKey (runLoop witnessOracle (fun _ => (0, 0)) (fun _ => (0 : ℚ)) (fun _ => []) 5
            [RawPost.mk (PyId.pint 1) [] 0 0 0, RawPost.mk (PyId.pint 2) [] 0 0 0]
            (initState [] ⟨50, 900⟩)).hist
            (pyStr (RawPost.mk (PyId.pint 2) [] 0 0 0).id) = true) := by
  have hf1 : ∀ txt, (post_reply witnessOracle (RawPost.mk (PyId.pint 1) [] 0 0 0).id txt).1 = false :=
    fun txt => rfl
  have hs2 : ∀ txt, (post_reply witnessOracle (RawPost.mk (PyId.pint 2) [] 0 0 0).id txt).1 = true :=
    fun txt => rfl
  have hne : pyStr (RawPost.mk (PyId.pint 1) [] 0 0 0).id ≠
      pyStr (RawPost.mk (PyId.pint 2) [] 0 0 0).id := by decide
  exact ⟨hf1, hs2, rfl, rfl, hne,
    post_failure_skip_and_continue.2 witnessOracle (fun _ => (0, 0)) (fun _ => (0 : ℚ))
      (fun _ => []) [] ⟨50, 900⟩ 5 (RawPost.mk (PyId.pint 1) [] 0 0 0)
      (RawPost.mk (PyId.pint 2) [] 0 0 0) hf1 hs2 rfl rfl hne⟩

/-- Witness for C8 at a concrete failing credential setup. -/
theorem orchestrator_never_raises_witness :
    (Except.error "Twitter API credentials not found in environment variables".toList
        : Except (List Char) Unit) =
      Except.error "Twitter API credentials not found in environment variables".toList
    ∧ run_twitter_bot
        (Except.error "Twitter API credentials not found in environment variables".toList)
        (Except.ok none) okOracle (fun _ => (0, 0)) (fun _ => (0 : ℚ)) (fun _ => [])
        [] 0 5 = Except.ok none :=
  ⟨rfl, (orchestrator_never_raises _ _ _ _ _ _ _ _ _).2 _ rfl⟩

end TwitterBot
